import Mathlib

/-!
Verification of the verify-modbus-demo Modbus stack.

The definitions below are a shallow embedding of the C sources:
`modbus_master.c`, `modbus_slave.c`, `modbus_tcp.c` and the backend layer
(`modbus_backend.c`).  Machine integers are modelled as `Nat`/`Int` with
explicit `% 2^16` where the C type (`uint16_t`) makes overflow observable.
Code that is not part of the repository snapshot (the byte codec
`modbus_cvt_*`, the PDU codec, the instance struct `mb_inst_t`) is either
modelled from the specification (marked `Modelled from the spec:`) or
abstracted as an oracle parameter carrying the outcome the missing code
would produce.
-/

/-- Modelled from the spec: byte codec `modbus_cvt_u16_put` (§4.1, the
codec source file is not in the snapshot).  Writes a u16 big-endian,
high byte first, and "returns" the two produced bytes. -/
def modbus_cvt_u16_put (x : Nat) : List Nat :=
  [(x >>> 8) % 256, x % 256]

/-- Modelled from the spec: byte codec `modbus_cvt_u8_put` (§4.1). -/
def modbus_cvt_u8_put (x : Nat) : List Nat :=
  [x % 256]

/-- Modelled from the spec: byte codec `modbus_cvt_u16_get` (§4.1).
Reads a big-endian u16 at offset `off` of a byte list. -/
def modbus_cvt_u16_get (bytes : List Nat) (off : Nat) : Nat :=
  256 * (bytes.getD off 0) + bytes.getD (off + 1) 0

/-- Sequence of `n` u16 values parsed big-endian from a byte list,
as done by the `modbus_cvt_u16_get` pointer-walking loops. -/
def parseU16s (bytes : List Nat) : Nat → Nat → List Nat
  | 0, _ => []
  | n + 1, off => modbus_cvt_u16_get bytes off :: parseU16s bytes n (off + 2)

/-- Sequence of u16 values serialized big-endian, as done by the
`modbus_cvt_u16_put` pointer-walking loops. -/
def encodeU16s (vals : List Nat) : List Nat :=
  vals.flatMap modbus_cvt_u16_put

/-- Modelled from the spec: `modbus_bitmap_get` (§4.1): bit `i` lives at
byte `i/8`, bit position `i%8`, LSB first. -/
def modbus_bitmap_get (bytes : List Nat) (i : Nat) : Nat :=
  (bytes.getD (i / 8) 0 >>> (i % 8)) &&& 1

/-- One byte of an LSB-first bitmap packed from a bit list, as produced by
the `modbus_bitmap_set` loop over a zeroed buffer. -/
def bitmapByte (bits : List Nat) (j : Nat) : Nat :=
  (List.range 8).foldr
    (fun i acc => acc + (if bits.getD (8 * j + i) 0 ≠ 0 then 1 else 0) * 2 ^ i) 0

/-- LSB-first bitmap of a bit list, `(n+7)/8` bytes for `n` bits. -/
def bitmapOfBits (bits : List Nat) : List Nat :=
  (List.range ((bits.length + 7) / 8)).map (bitmapByte bits)

/-! ## Transport backend: `modbus_backend_read` (modbus_backend.c) -/

/-- The fields of `mb_backend_t` relevant to `modbus_backend_read`:
the two timeouts and whether the handle / read op are present. -/
structure MbBackend where
  ack_tmo_ms : Int
  byte_tmo_ms : Int
  hinstOpen : Bool
  opsRead : Bool

/-- Environment for one call of `modbus_backend_read`: `read k req` is
what `backend->ops->read` returns at its `k`-th invocation when asked for
`req` bytes (`none` = the C `-1` error, `some chunk` = `chunk.length`
bytes delivered); `time k` is what the `k`-th call of
`modbus_port_get_ms` returns (call `0` initialises `told_ms`). -/
structure ReadEnv where
  read : Nat → Nat → Option (List Nat)
  time : Nat → Int

/-- The `while (pos < bufsize)` loop of `modbus_backend_read`, driven by
`fuel` (the C loop can spin forever when the port keeps returning "no
data" and the clock does not advance; `none` means the fuel ran out with
the loop still running).  `acc` is the data stored in `buf` so far
(`pos = acc.length`), `told` is `told_ms`, `k` counts port/clock polls. -/
def mbReadLoop (bk : MbBackend) (env : ReadEnv) (bufsize : Nat) :
    Nat → List Nat → Int → Nat → Option (Int × List Nat)
  | 0, _, _, _ => none
  | fuel + 1, acc, told, k =>
    if acc.length < bufsize then
      match env.read k (bufsize - acc.length) with
      | none => some (-1, acc)
      | some c =>
        if 0 < c.length then
          mbReadLoop bk env bufsize fuel (acc ++ c) (env.time k) (k + 1)
        else
          let tmo : Int := env.time k - told
          if acc.length ≠ 0 then
            if tmo > bk.byte_tmo_ms then some ((acc.length : Int), acc)
            else mbReadLoop bk env bufsize fuel acc told (k + 1)
          else
            if tmo > bk.ack_tmo_ms then some ((acc.length : Int), acc)
            else mbReadLoop bk env bufsize fuel acc told (k + 1)
    else some ((acc.length : Int), acc)

/-- Embedding of `modbus_backend_read` (modbus_backend.c): argument guards, then the
two-timer receive loop.  Returns the C return value paired with the bytes
stored into the caller's buffer. -/
def modbus_backend_read (bk : MbBackend) (bufsize : Int) (env : ReadEnv)
    (fuel : Nat) : Option (Int × List Nat) :=
  if bufsize ≤ 0 then some (-1, [])
  else if ¬ bk.hinstOpen then some (-1, [])
  else if ¬ bk.opsRead then some (-1, [])
  else mbReadLoop bk env bufsize.toNat fuel [] (env.time 0) 1

theorem mbReadLoop_full (bk : MbBackend) (env : ReadEnv) (bufsize : Nat)
    (fuel : Nat) (acc : List Nat) (told : Int) (k : Nat)
    (h : ¬ acc.length < bufsize) :
    mbReadLoop bk env bufsize (fuel + 1) acc told k
      = some ((acc.length : Int), acc) := by
  simp [mbReadLoop, h]

theorem mbReadLoop_bounded (bk : MbBackend) (env : ReadEnv) (bufsize : Nat)
    (henv : ∀ k req c, env.read k req = some c → c.length ≤ req) :
    ∀ fuel acc told k r out, acc.length ≤ bufsize →
      mbReadLoop bk env bufsize fuel acc told k = some (r, out) →
      r ≤ (bufsize : Int) ∧ out.length ≤ bufsize := by
  intro fuel
  induction fuel with
  | zero => intro acc told k r out _ h; simp [mbReadLoop] at h
  | succ n ih =>
    intro acc told k r out hacc h
    rw [mbReadLoop] at h
    by_cases hlt : acc.length < bufsize
    · rw [if_pos hlt] at h
      cases hr : env.read k (bufsize - acc.length) with
      | none =>
        rw [hr] at h
        simp at h
        obtain ⟨h1, h2⟩ := h
        subst h1; subst h2
        constructor
        · omega
        · exact hacc
      | some c =>
        rw [hr] at h
        simp only at h
        by_cases hc : 0 < c.length
        · rw [if_pos hc] at h
          have hlen : (acc ++ c).length ≤ bufsize := by
            have := henv k (bufsize - acc.length) c hr
            simp only [List.length_append]
            omega
          exact ih (acc ++ c) (env.time k) (k + 1) r out hlen h
        · rw [if_neg hc] at h
          by_cases hne : acc.length ≠ 0
          · rw [if_pos hne] at h
            by_cases htmo : env.time k - told > bk.byte_tmo_ms
            · rw [if_pos htmo] at h
              simp at h
              obtain ⟨h1, h2⟩ := h
              subst h1; subst h2
              exact ⟨by exact_mod_cast hacc, hacc⟩
            · rw [if_neg htmo] at h
              exact ih acc told (k + 1) r out hacc h
          · rw [if_neg hne] at h
            by_cases htmo : env.time k - told > bk.ack_tmo_ms
            · rw [if_pos htmo] at h
              simp at h
              obtain ⟨h1, h2⟩ := h
              subst h1; subst h2
              exact ⟨by exact_mod_cast hacc, hacc⟩
            · rw [if_neg htmo] at h
              exact ih acc told (k + 1) r out hacc h
    · rw [if_neg hlt] at h
      simp at h
      obtain ⟨h1, h2⟩ := h
      subst h1; subst h2
      exact ⟨by exact_mod_cast hacc, hacc⟩

/-- C2: the two-timer contract of `modbus_backend_read`.  (1) While no
byte has been received (`acc = []`, `told` still the call-start
timestamp), a poll that finds no data after more than `ack_tmo_ms` makes
the call return 0.  (2) Once at least one byte is in the buffer, a poll
that finds no data after a silence longer than `byte_tmo_ms` makes the
call return the accumulated byte count.  (3) Every nonempty chunk resets
the silence timer to the current clock.  (4) At the top level, a call on
an open backend that sees no data on its first poll, more than
`ack_tmo_ms` after the initial timestamp, returns 0. -/
theorem c2_backend_read_two_timer_contract (bk : MbBackend) (env : ReadEnv)
    (bufsize : Nat) :
    (∀ fuel told k, env.read k bufsize = some [] →
       env.time k - told > bk.ack_tmo_ms → 0 < bufsize →
       mbReadLoop bk env bufsize (fuel + 1) [] told k = some (0, [])) ∧
    (∀ fuel acc told k, acc ≠ [] → acc.length ≤ bufsize →
       env.read k (bufsize - acc.length) = some [] →
       env.time k - told > bk.byte_tmo_ms →
       mbReadLoop bk env bufsize (fuel + 1) acc told k
         = some ((acc.length : Int), acc)) ∧
    (∀ fuel acc told k c, 0 < c.length → acc.length < bufsize →
       env.read k (bufsize - acc.length) = some c →
       mbReadLoop bk env bufsize (fuel + 1) acc told k
         = mbReadLoop bk env bufsize fuel (acc ++ c) (env.time k) (k + 1)) ∧
    (∀ fuel, bk.hinstOpen = true → bk.opsRead = true → 0 < bufsize →
       env.read 1 bufsize = some [] →
       env.time 1 - env.time 0 > bk.ack_tmo_ms →
       modbus_backend_read bk (bufsize : Int) env (fuel + 1) = some (0, [])) := by
  refine ⟨?_, ?_, ?_, ?_⟩
  · intro fuel told k hr htmo hpos
    rw [mbReadLoop]
    simp only [List.length_nil, if_pos hpos, Nat.sub_zero, hr]
    simp [htmo]
  · intro fuel acc told k hne hle hr htmo
    by_cases hlt : acc.length < bufsize
    · rw [mbReadLoop]
      rw [if_pos hlt, hr]
      have hne' : acc.length ≠ 0 := by
        intro h; exact hne (List.length_eq_zero.mp h)
      simp [hne', htmo]
    · exact mbReadLoop_full bk env bufsize fuel acc told k hlt
  · intro fuel acc told k c hc hlt hr
    rw [mbReadLoop]
    rw [if_pos hlt, hr]
    simp [hc]
  · intro fuel hopen hread hpos hr htmo
    rw [modbus_backend_read]
    have h1 : ¬ ((bufsize : Int) ≤ 0) := by exact_mod_cast Nat.not_le.mpr hpos
    rw [if_neg h1]
    simp only [hopen, hread, not_true, if_neg, ite_false]
    have htn : (bufsize : Int).toNat = bufsize := Int.toNat_natCast bufsize
    rw [htn, mbReadLoop]
    simp only [List.length_nil, if_pos hpos, Nat.sub_zero, hr]
    simp [htmo]

/-- C2 witness: the contract applied to a concrete environment (ack
timeout 300 ms exceeded on the first poll of an 8-byte buffer). -/
theorem c2_backend_read_two_timer_contract_witness :
    mbReadLoop ⟨300, 32, true, true⟩ ⟨fun _ _ => some [], fun k => 400 * k⟩
      8 1 [] 0 1 = some (0, []) := by
  have h := (c2_backend_read_two_timer_contract ⟨300, 32, true, true⟩
    ⟨fun _ _ => some [], fun k => 400 * k⟩ 8).1 0 0 1 rfl (by norm_num)
    (by norm_num)
  exact h

/-- C10: `modbus_backend_read` never stores more than `bufsize` bytes and
never returns more than `bufsize` (given the port contract that a read
never delivers more bytes than requested), and a full buffer is returned
immediately — `bufsize` comes back without consulting the port or the
clock again, so no silence gap is awaited. -/
theorem c10_backend_read_bounds (bk : MbBackend) (env : ReadEnv)
    (bufsize : Int) (fuel : Nat) (r : Int) (out : List Nat)
    (henv : ∀ k req c, env.read k req = some c → c.length ≤ req)
    (hb : 0 ≤ bufsize)
    (h : modbus_backend_read bk bufsize env fuel = some (r, out)) :
    (r ≤ bufsize ∧ (out.length : Int) ≤ bufsize) ∧
    (∀ fuel' acc told k, acc.length = bufsize.toNat →
       mbReadLoop bk env bufsize.toNat (fuel' + 1) acc told k
         = some ((bufsize.toNat : Int), acc)) := by
  constructor
  · rw [modbus_backend_read] at h
    by_cases h0 : bufsize ≤ 0
    · rw [if_pos h0] at h
      simp at h
      obtain ⟨h1, h2⟩ := h
      subst h1; subst h2
      constructor
      · omega
      · simpa using hb
    · rw [if_neg h0] at h
      by_cases hop : ¬ bk.hinstOpen
      · rw [if_pos hop] at h
        simp at h
        obtain ⟨h1, h2⟩ := h
        subst h1; subst h2
        exact ⟨by omega, by simpa using hb⟩
      · rw [if_neg hop] at h
        by_cases hrd : ¬ bk.opsRead
        · rw [if_pos hrd] at h
          simp at h
          obtain ⟨h1, h2⟩ := h
          subst h1; subst h2
          exact ⟨by omega, by simpa using hb⟩
        · rw [if_neg hrd] at h
          have := mbReadLoop_bounded bk env bufsize.toNat henv fuel []
            (env.time 0) 1 r out (by simp) h
          obtain ⟨hr, ho⟩ := this
          constructor
          · calc r ≤ (bufsize.toNat : Int) := hr
              _ = bufsize := Int.toNat_of_nonneg hb
          · calc (out.length : Int) ≤ (bufsize.toNat : Int) := by exact_mod_cast ho
              _ = bufsize := Int.toNat_of_nonneg hb
  · intro fuel' acc told k hacc
    have : ¬ acc.length < bufsize.toNat := by omega
    have := mbReadLoop_full bk env bufsize.toNat fuel' acc told k this
    rw [this, hacc]

/-- C10 witness: the bounds applied to a concrete call (port hands over 4
bytes at once into a 4-byte buffer; the call returns 4 = bufsize with the
4 bytes, and a full buffer returns immediately). -/
theorem c10_backend_read_bounds_witness :
    modbus_backend_read ⟨300, 32, true, true⟩ 4
      ⟨fun _ req => some ((List.range 4).take req), fun k => (k : Int)⟩
      2 = some (4, [0, 1, 2, 3]) ∧
    (4 : Int) ≤ 4 ∧ (([0, 1, 2, 3] : List Nat).length : Int) ≤ 4 := by
  have heval : modbus_backend_read ⟨300, 32, true, true⟩ 4
      ⟨fun _ req => some ((List.range 4).take req), fun k => (k : Int)⟩
      2 = some (4, [0, 1, 2, 3]) := by decide
  refine ⟨heval, ?_⟩
  have h := (c10_backend_read_bounds ⟨300, 32, true, true⟩
    ⟨fun _ req => some ((List.range 4).take req), fun k => (k : Int)⟩
    4 2 4 [0, 1, 2, 3]
    (by
      intro k req c hc
      simp only [Option.some.injEq] at hc
      subst hc
      exact List.length_take_le req (List.range 4))
    (by norm_num) heval).1
  exact h

/-! ## Protocol data model -/

/-- Protocol tag of an instance (`mb_prot_t`). -/
inductive MbProt where
  | rtu
  | tcp
deriving DecidableEq

/-- MBAP header `mb_tcp_mbap_t` (modbus_tcp.h): transaction id, protocol
id, length field, unit/device id.  All fields are u16 (`did` u8),
modelled as `Nat` holding values below the type bound. -/
structure MbMbap where
  tid : Nat := 0
  pid : Nat := 0
  dlen : Nat := 0
  did : Nat := 0
deriving DecidableEq

/-- Modelled from the spec: the PDU tagged union `mb_pdu_t` (§3; the
header defining it is not in the snapshot).  The C union overlays the
per-function-code structs, each beginning with `fc`; the handlers only
ever read request fields before writing response fields, so a flat
record with one slot per field is observation-equivalent for the
embedded code paths.  Field names follow the C members
(`rd_req.addr`/`nb`, `rd_rsp.dlen`/`pdata`, `wr_single.val`,
`mask_wr.val_and`/`val_or`, `wr_rd_req.rd_addr`/…, `exc.ec`). -/
structure MbPdu where
  fc : Nat := 0
  addr : Nat := 0
  nb : Nat := 0
  val : Nat := 0
  val_and : Nat := 0
  val_or : Nat := 0
  dlen : Nat := 0
  pdata : List Nat := []
  rd_addr : Nat := 0
  rd_nb : Nat := 0
  wr_addr : Nat := 0
  wr_nb : Nat := 0
  ec : Nat := 0
deriving DecidableEq

/-- RTU frame `mb_rtu_frm_t`: slave address plus PDU. -/
structure MbRtuFrm where
  saddr : Nat := 0
  pdu : MbPdu := {}
deriving DecidableEq

/-- TCP frame `mb_tcp_frm_t` (modbus_tcp.h): MBAP header plus PDU. -/
structure MbTcpFrm where
  mbap : MbMbap := {}
  pdu : MbPdu := {}
deriving DecidableEq

/-- Modelled from the spec: the instance `mb_inst_t` (§3; the header is
not in the snapshot).  It carries the protocol tag, the slave address,
and — as used by `modbus_master.c` — two distinct fields `tid` and
`tsid`; `tsid` is the u16 transaction counter incremented on each TCP
transaction, `tid` the older field the MBAP check reads. -/
structure MbInst where
  prototype : MbProt := .rtu
  saddr : Nat := 1
  tid : Nat := 0
  tsid : Nat := 0
deriving DecidableEq

/-- Modelled from the spec: `MODBUS_FC_EXCEPT_MAKE` sets the high bit of
the function code (§3). -/
def MODBUS_FC_EXCEPT_MAKE (fc : Nat) : Nat := fc ||| 0x80

/-- Modelled from the spec: `MODBUS_FC_EXCEPT_CHK` tests the high bit of
the function code (§3). -/
def MODBUS_FC_EXCEPT_CHK (fc : Nat) : Bool := fc &&& 0x80 != 0

def MB_TCP_MBAP_PID : Nat := 0x0000

def MODBUS_FC_READ_COILS : Nat := 0x01
def MODBUS_FC_READ_DISCRETE_INPUTS : Nat := 0x02
def MODBUS_FC_READ_HOLDING_REGISTERS : Nat := 0x03
def MODBUS_FC_READ_INPUT_REGISTERS : Nat := 0x04
def MODBUS_FC_WRITE_SINGLE_COIL : Nat := 0x05
def MODBUS_FC_WRITE_SINGLE_REGISTER : Nat := 0x06
def MODBUS_FC_READ_EXCEPTION_STATUS : Nat := 0x07
def MODBUS_FC_WRITE_MULTIPLE_COILS : Nat := 0x0F
def MODBUS_FC_WRITE_MULTIPLE_REGISTERS : Nat := 0x10
def MODBUS_FC_REPORT_SLAVE_ID : Nat := 0x11
def MODBUS_FC_MASK_WRITE_REGISTER : Nat := 0x16
def MODBUS_FC_WRITE_AND_READ_REGISTERS : Nat := 0x17

def MODBUS_EC_ILLEGAL_FUNCTION : Nat := 0x01
def MODBUS_EC_ILLEGAL_DATA_ADDRESS : Nat := 0x02
def MODBUS_EC_ILLEGAL_DATA_VALUE : Nat := 0x03
def MODBUS_EC_SLAVE_OR_SERVER_FAILURE : Nat := 0x04

/-- Embedding of `modbus_tcp_frm_make` (modbus_tcp.c): serialize the MBAP header
(TID, PID, DLEN = pdu length + 1, UID big-endian) followed by the PDU
bytes.  The PDU serialization `modbus_pdu_make` is not in the snapshot,
so its output is the oracle parameter `pduBytes`.  Returns the C return
value (total frame length) and the produced bytes. -/
def modbus_tcp_frm_make (pduBytes : List Nat) (frm : MbTcpFrm) : Int × List Nat :=
  let pdu_len := pduBytes.length
  ((7 + pdu_len : Nat),
    modbus_cvt_u16_put frm.mbap.tid ++ modbus_cvt_u16_put frm.mbap.pid
      ++ modbus_cvt_u16_put (pdu_len + 1) ++ modbus_cvt_u8_put frm.mbap.did
      ++ pduBytes)

/-! ## Master transaction core (modbus_master.c)

The send / receive / parse stages call code that is not in the snapshot
(`modbus_send`, `modbus_recv`, the frame parsers delegating to the PDU
codec); their outcome for the one transaction of an operation is an
oracle: `sendOk` is whether `modbus_send` returned the frame length,
`rlen` the `modbus_recv` result, `parse` the parser's return value
together with the frame contents it left in memory. -/

structure TcpMasterEnv where
  sendOk : Bool := true
  rlen : Int := 0
  parse : Int × MbTcpFrm := (0, {})

structure RtuMasterEnv where
  sendOk : Bool := true
  rlen : Int := 0
  parse : Int × MbRtuFrm := (0, {})

/-- Observable outcome of one TCP master operation: the C return value,
the updated instance, the request frame that was built, and the bytes
handed to `modbus_send`. -/
structure TcpOpResult where
  ret : Int
  inst : MbInst
  reqFrm : MbTcpFrm
  sentBytes : List Nat
deriving DecidableEq

/-- Embedding of `modbus_read_req_tcp` (modbus_master.c, with `MB_USING_ADDR_CHK` /
`MB_USING_MBAP_CHK` as the two Booleans): bump `tsid`, build the request
frame with `tid = tsid`, send, receive, parse, validate, and extract.
All early `return 0` paths leave the same instance state, so the result
record is assembled once with the return value computed by the guard
chain.  Note the MBAP check compares the response TID against
`hinst->tid`, not against the transmitted `tsid`. -/
def modbus_read_req_tcp (addrChk mbapChk : Bool) (inst : MbInst)
    (func addr nb : Nat) (pduBytes : List Nat) (env : TcpMasterEnv) :
    TcpOpResult :=
  let tsid' := (inst.tsid + 1) % 65536
  let frm : MbTcpFrm :=
    { mbap := { tid := tsid', pid := MB_TCP_MBAP_PID, did := inst.saddr },
      pdu := { fc := func, addr := addr, nb := nb } }
  let ret : Int :=
    if ¬ env.sendOk then 0
    else if env.rlen ≤ 0 then 0
    else if env.parse.1 < 0 then 0
    else if addrChk ∧ env.parse.2.mbap.did ≠ inst.saddr then 0
    else if mbapChk ∧ (env.parse.2.mbap.tid ≠ inst.tid
        ∨ env.parse.2.mbap.pid ≠ MB_TCP_MBAP_PID
        ∨ (env.parse.2.mbap.dlen : Int) ≠ env.parse.1 + 1) then 0
    else if MODBUS_FC_EXCEPT_CHK env.parse.2.pdu.fc then
      -(env.parse.2.pdu.ec : Int)
    else (env.parse.2.pdu.dlen : Int)
  { ret := ret, inst := { inst with tsid := tsid' }, reqFrm := frm,
    sentBytes := (modbus_tcp_frm_make pduBytes frm).2 }

/-- Embedding of `modbus_write_req_tcp` (modbus_master.c): same transaction skeleton
as the read path; on success returns `frm.pdu.wr_rsp.nb`. -/
def modbus_write_req_tcp (addrChk mbapChk : Bool) (inst : MbInst)
    (func addr nb dlen : Nat) (pdata pduBytes : List Nat)
    (env : TcpMasterEnv) : TcpOpResult :=
  let tsid' := (inst.tsid + 1) % 65536
  let frm : MbTcpFrm :=
    { mbap := { tid := tsid', pid := MB_TCP_MBAP_PID, did := inst.saddr },
      pdu := { fc := func, addr := addr, nb := nb, dlen := dlen,
               pdata := pdata } }
  let ret : Int :=
    if ¬ env.sendOk then 0
    else if env.rlen ≤ 0 then 0
    else if env.parse.1 < 0 then 0
    else if addrChk ∧ env.parse.2.mbap.did ≠ inst.saddr then 0
    else if mbapChk ∧ (env.parse.2.mbap.tid ≠ inst.tid
        ∨ env.parse.2.mbap.pid ≠ MB_TCP_MBAP_PID
        ∨ (env.parse.2.mbap.dlen : Int) ≠ env.parse.1 + 1) then 0
    else if MODBUS_FC_EXCEPT_CHK env.parse.2.pdu.fc then
      -(env.parse.2.pdu.ec : Int)
    else (env.parse.2.pdu.nb : Int)
  { ret := ret, inst := { inst with tsid := tsid' }, reqFrm := frm,
    sentBytes := (modbus_tcp_frm_make pduBytes frm).2 }

/-- Observable outcome of one RTU master operation: the C return value
and the request frame that was built and sent. -/
structure RtuOpResult where
  ret : Int
  reqFrm : MbRtuFrm
deriving DecidableEq

/-- Embedding of `modbus_read_req_rtu` (modbus_master.c): build the read request,
send, receive, parse (`pdu_len <= 0` rejects), check the slave address
when `MB_USING_ADDR_CHK` is on, map an exception response to `-ec`,
otherwise return the response byte count. -/
def modbus_read_req_rtu (addrChk : Bool) (inst : MbInst)
    (func addr nb : Nat) (env : RtuMasterEnv) : RtuOpResult :=
  let ret : Int :=
    if ¬ env.sendOk then 0
    else if env.rlen ≤ 0 then 0
    else if env.parse.1 ≤ 0 then 0
    else if addrChk ∧ env.parse.2.saddr ≠ inst.saddr then 0
    else if MODBUS_FC_EXCEPT_CHK env.parse.2.pdu.fc then
      -(env.parse.2.pdu.ec : Int)
    else (env.parse.2.pdu.dlen : Int)
  { ret := ret,
    reqFrm := { saddr := inst.saddr,
                pdu := { fc := func, addr := addr, nb := nb } } }

/-- Embedding of `modbus_read_req` (modbus_master.c): dispatch on the protocol tag.
Returns the C return value and the instance after the call. -/
def modbus_read_req (addrChk mbapChk : Bool) (inst : MbInst)
    (func addr nb : Nat) (pduBytes : List Nat) (envR : RtuMasterEnv)
    (envT : TcpMasterEnv) : Int × MbInst :=
  match inst.prototype with
  | .rtu => ((modbus_read_req_rtu addrChk inst func addr nb envR).ret, inst)
  | .tcp =>
    let r := modbus_read_req_tcp addrChk mbapChk inst func addr nb pduBytes envT
    (r.ret, r.inst)

/-- Embedding of `modbus_read_bits` (modbus_master.c): read coils, then return `nb`
when the byte count matches `(nb+7)/8` and the raw result otherwise. -/
def modbus_read_bits (addrChk mbapChk : Bool) (inst : MbInst)
    (addr nb : Nat) (pduBytes : List Nat) (envR : RtuMasterEnv)
    (envT : TcpMasterEnv) : Int :=
  let dlen := (modbus_read_req addrChk mbapChk inst MODBUS_FC_READ_COILS
    addr nb pduBytes envR envT).1
  if dlen ≠ (((nb + 7) / 8 : Nat) : Int) then dlen else (nb : Int)

/-- Embedding of `modbus_read_input_bits` (modbus_master.c): same wrapper for
function code 0x02. -/
def modbus_read_input_bits (addrChk mbapChk : Bool) (inst : MbInst)
    (addr nb : Nat) (pduBytes : List Nat) (envR : RtuMasterEnv)
    (envT : TcpMasterEnv) : Int :=
  let dlen := (modbus_read_req addrChk mbapChk inst
    MODBUS_FC_READ_DISCRETE_INPUTS addr nb pduBytes envR envT).1
  if dlen ≠ (((nb + 7) / 8 : Nat) : Int) then dlen else (nb : Int)

/-- C9: every TCP master transaction increments the instance's `tsid`
counter by exactly one modulo 2^16, and the TID placed into the request
frame and serialized into the first two MBAP bytes equals the new
counter value — for the read path and the write path alike, for every
environment (the increment happens before any failure can return). -/
theorem c9_tcp_tid_increment (addrChk mbapChk : Bool) (inst : MbInst)
    (func addr nb dlen : Nat) (pdata pduBytes : List Nat)
    (env : TcpMasterEnv) :
    ((modbus_read_req_tcp addrChk mbapChk inst func addr nb pduBytes
        env).inst.tsid = (inst.tsid + 1) % 65536
      ∧ (modbus_read_req_tcp addrChk mbapChk inst func addr nb pduBytes
          env).reqFrm.mbap.tid
        = (modbus_read_req_tcp addrChk mbapChk inst func addr nb pduBytes
            env).inst.tsid
      ∧ (modbus_read_req_tcp addrChk mbapChk inst func addr nb pduBytes
          env).sentBytes.take 2
        = modbus_cvt_u16_put ((inst.tsid + 1) % 65536))
    ∧ ((modbus_write_req_tcp addrChk mbapChk inst func addr nb dlen pdata
        pduBytes env).inst.tsid = (inst.tsid + 1) % 65536
      ∧ (modbus_write_req_tcp addrChk mbapChk inst func addr nb dlen pdata
          pduBytes env).reqFrm.mbap.tid
        = (modbus_write_req_tcp addrChk mbapChk inst func addr nb dlen pdata
            pduBytes env).inst.tsid
      ∧ (modbus_write_req_tcp addrChk mbapChk inst func addr nb dlen pdata
          pduBytes env).sentBytes.take 2
        = modbus_cvt_u16_put ((inst.tsid + 1) % 65536)) :=
  ⟨⟨rfl, rfl, rfl⟩, ⟨rfl, rfl, rfl⟩⟩

/-- C1: evaluation of `modbus_read_req_tcp` (both checks compiled in) at
a transaction whose response is well-formed and echoes the transmitted
TID.  The instance starts with `tid = 0`, `tsid = 0`; the request goes
out with TID 1 (first conjunct); the response echoes TID 1 with PID 0
and DLEN = pdu_len + 1, yet the operation returns 0 (second conjunct)
instead of the payload byte count 2, because the MBAP check compares the
response TID against the stale `hinst->tid` field (0) rather than the
transmitted `hinst->tsid` (1). -/
theorem c1_mbap_check_rejects_echoed_tid :
    (modbus_read_req_tcp true true
        { prototype := .tcp, saddr := 1, tid := 0, tsid := 0 } 3 107 1
        [3, 0, 107, 0, 1]
        { sendOk := true, rlen := 11,
          parse := (4, { mbap := { tid := 1, pid := 0, dlen := 5, did := 1 },
                         pdu := { fc := 3, dlen := 2,
                                  pdata := [171, 205] } }) }).reqFrm.mbap.tid
      = 1
    ∧ (modbus_read_req_tcp true true
        { prototype := .tcp, saddr := 1, tid := 0, tsid := 0 } 3 107 1
        [3, 0, 107, 0, 1]
        { sendOk := true, rlen := 11,
          parse := (4, { mbap := { tid := 1, pid := 0, dlen := 5, did := 1 },
                         pdu := { fc := 3, dlen := 2,
                                  pdata := [171, 205] } }) }).ret = 0 := by
  decide

/-- C3: on the RTU path a parse result of 0 (malformed frame) makes the
operation return 0 (first conjunct), but on the TCP path the guard is
`pdu_len < 0`, so a parse result of 0 falls through the remaining
validation: with a response whose MBAP header carries DLEN = 1 and the
stale TID, and whose PDU slots hold fc 0x03 with byte count 4, the
operation returns 4 instead of 0 (second conjunct). -/
theorem c3_tcp_parse_zero_falls_through :
    (modbus_read_req_rtu true
        { prototype := .rtu, saddr := 1, tid := 0, tsid := 0 } 3 0 1
        { sendOk := true, rlen := 7,
          parse := (0, { saddr := 1,
                         pdu := { fc := 3, dlen := 4,
                                  pdata := [0, 0, 0, 0] } }) }).ret = 0
    ∧ (modbus_read_req_tcp true true
        { prototype := .tcp, saddr := 1, tid := 7, tsid := 7 } 3 0 1
        [3, 0, 0, 0, 1]
        { sendOk := true, rlen := 9,
          parse := (0, { mbap := { tid := 7, pid := 0, dlen := 1, did := 1 },
                         pdu := { fc := 3, dlen := 4,
                                  pdata := [0, 0, 0, 0] } }) }).ret = 4 := by
  decide

/-- C7 counterexample: `modbus_read_bits` asked for `nb = 8` bits, the
(abnormal) response carries byte count 2 instead of `(8+7)/8 = 1`; the
operation returns 2, a positive value different from `nb`. -/
theorem c7_read_bits_counterexample :
    modbus_read_bits true true
      { prototype := .rtu, saddr := 1, tid := 0, tsid := 0 } 0 8 []
      { sendOk := true, rlen := 7,
        parse := (4, { saddr := 1,
                       pdu := { fc := 1, dlen := 2, pdata := [0, 0] } }) }
      {} = 2
    ∧ ((0 : Int) < 2 ∧ (2 : Int) ≠ 8) := by
  decide

/-- C7 amended: a positive value returned by `modbus_read_bits` or
`modbus_read_input_bits` equals the requested bit count `nb` whenever
the response byte count equals `(nb+7)/8`; when the response carries a
different byte count, that byte count itself (the raw
`modbus_read_req` result) is returned. -/
theorem c7_read_bits_positive_return (addrChk mbapChk : Bool)
    (inst : MbInst) (addr nb : Nat) (pduBytes : List Nat)
    (envR : RtuMasterEnv) (envT : TcpMasterEnv) :
    (0 < modbus_read_bits addrChk mbapChk inst addr nb pduBytes envR envT →
      modbus_read_bits addrChk mbapChk inst addr nb pduBytes envR envT
        = (nb : Int)
      ∨ (modbus_read_bits addrChk mbapChk inst addr nb pduBytes envR envT
          = (modbus_read_req addrChk mbapChk inst MODBUS_FC_READ_COILS
              addr nb pduBytes envR envT).1
        ∧ (modbus_read_req addrChk mbapChk inst MODBUS_FC_READ_COILS
            addr nb pduBytes envR envT).1 ≠ (((nb + 7) / 8 : Nat) : Int)))
    ∧ (0 < modbus_read_input_bits addrChk mbapChk inst addr nb pduBytes
        envR envT →
      modbus_read_input_bits addrChk mbapChk inst addr nb pduBytes envR envT
        = (nb : Int)
      ∨ (modbus_read_input_bits addrChk mbapChk inst addr nb pduBytes envR
          envT
          = (modbus_read_req addrChk mbapChk inst
              MODBUS_FC_READ_DISCRETE_INPUTS addr nb pduBytes envR envT).1
        ∧ (modbus_read_req addrChk mbapChk inst
            MODBUS_FC_READ_DISCRETE_INPUTS addr nb pduBytes envR
            envT).1 ≠ (((nb + 7) / 8 : Nat) : Int))) := by
  constructor
  · intro _
    simp only [modbus_read_bits]
    split_ifs with hd
    · exact Or.inr ⟨rfl, hd⟩
    · exact Or.inl rfl
  · intro _
    simp only [modbus_read_input_bits]
    split_ifs with hd
    · exact Or.inr ⟨rfl, hd⟩
    · exact Or.inl rfl

/-- C7 amended witness: the amended statement applied at a concrete
transaction (8 bits requested, response byte count 1 = (8+7)/8, the
call returns 8 = nb). -/
theorem c7_read_bits_positive_return_witness :
    modbus_read_bits true true
      { prototype := .rtu, saddr := 1, tid := 0, tsid := 0 } 0 8 []
      { sendOk := true, rlen := 6,
        parse := (3, { saddr := 1,
                       pdu := { fc := 1, dlen := 1, pdata := [0] } }) }
      {} = (8 : Int)
    ∨ (modbus_read_bits true true
        { prototype := .rtu, saddr := 1, tid := 0, tsid := 0 } 0 8 []
        { sendOk := true, rlen := 6,
          parse := (3, { saddr := 1,
                         pdu := { fc := 1, dlen := 1, pdata := [0] } }) }
        {}
        = (modbus_read_req true true
            { prototype := .rtu, saddr := 1, tid := 0, tsid := 0 }
            MODBUS_FC_READ_COILS 0 8 []
            { sendOk := true, rlen := 6,
              parse := (3, { saddr := 1,
                             pdu := { fc := 1, dlen := 1, pdata := [0] } }) }
            {}).1
      ∧ (modbus_read_req true true
          { prototype := .rtu, saddr := 1, tid := 0, tsid := 0 }
          MODBUS_FC_READ_COILS 0 8 []
          { sendOk := true, rlen := 6,
            parse := (3, { saddr := 1,
                           pdu := { fc := 1, dlen := 1, pdata := [0] } }) }
          {}).1 ≠ (((8 + 7) / 8 : Nat) : Int)) :=
  (c7_read_bits_positive_return true true
    { prototype := .rtu, saddr := 1, tid := 0, tsid := 0 } 0 8 []
    { sendOk := true, rlen := 6,
      parse := (3, { saddr := 1,
                     pdu := { fc := 1, dlen := 1, pdata := [0] } }) }
    {}).1 (by decide)

/-! ## Slave dispatch core (modbus_slave.c)

The user callbacks are arbitrary stateful functions over a state type
`σ`; every invocation is recorded in an event trace so that ordering
claims (writes before reads, callback not invoked, …) are statable. -/

/-- One user-callback invocation. -/
inductive MbEvent where
  | rdDisc (addr : Nat)
  | rdCoil (addr : Nat)
  | wrCoil (addr : Nat) (bit : Nat)
  | rdInput (addr : Nat)
  | rdHold (addr : Nat)
  | wrHold (addr : Nat) (val : Nat)
deriving DecidableEq

/-- Callback table `mb_cb_table_t`: each entry may be absent (NULL).
Read callbacks return (C result, value, new state); write callbacks
return (C result, new state). -/
structure MbCbTable (σ : Type) where
  read_disc : Option (σ → Nat → Int × Nat × σ) := none
  read_coil : Option (σ → Nat → Int × Nat × σ) := none
  write_coil : Option (σ → Nat → Nat → Int × σ) := none
  read_input : Option (σ → Nat → Int × Nat × σ) := none
  read_hold : Option (σ → Nat → Int × Nat × σ) := none
  write_hold : Option (σ → Nat → Nat → Int × σ) := none

/-- The `pdu->exc.ec = e; pdu->exc.fc = MODBUS_FC_EXCEPT_MAKE(pdu->exc.fc);`
sequence every handler uses to compose an exception response in place. -/
def pduMakeExc (pdu : MbPdu) (e : Nat) : MbPdu :=
  { pdu with ec := e, fc := MODBUS_FC_EXCEPT_MAKE pdu.fc }

/-- The `for (i...) { rst = read(addr+i, &x); if (rst < 0) ... }` loop
shared by the read handlers: read `n` values at ascending addresses,
stopping at the first failing callback.  Returns the failure (if any),
the values read, the final state and the invocation trace. -/
def readSeq {σ : Type} (mk : Nat → MbEvent) (rd : σ → Nat → Int × Nat × σ) :
    σ → Nat → Nat → Option Int × List Nat × σ × List MbEvent
  | s, _, 0 => (none, [], s, [])
  | s, addr, n + 1 =>
    let (rst, v, s') := rd s addr
    if rst < 0 then (some rst, [], s', [mk addr])
    else
      let (f, vs, s'', tr) := readSeq mk rd s' (addr + 1) n
      (f, v :: vs, s'', mk addr :: tr)

/-- The register write loop of the 0x10 and 0x17 handlers: write the
given values at ascending addresses via `write_hold`, stopping at the
first failing callback. -/
def writeRegSeq {σ : Type} (wh : σ → Nat → Nat → Int × σ) :
    σ → Nat → List Nat → Option Int × σ × List MbEvent
  | s, _, [] => (none, s, [])
  | s, addr, v :: vs =>
    let (rst, s') := wh s addr v
    if rst < 0 then (some rst, s', [.wrHold addr v])
    else
      let (f, s'', tr) := writeRegSeq wh s' (addr + 1) vs
      (f, s'', .wrHold addr v :: tr)

/-- The coil write loop of the 0x0F handler: write `n` bits taken from
the LSB-first bitmap `pbits` at ascending addresses. -/
def writeBitSeq {σ : Type} (wc : σ → Nat → Nat → Int × σ)
    (pbits : List Nat) (addr : Nat) :
    σ → Nat → Nat → Option Int × σ × List MbEvent
  | s, _, 0 => (none, s, [])
  | s, i, n + 1 =>
    let bit := modbus_bitmap_get pbits i
    let (rst, s') := wc s (addr + i) bit
    if rst < 0 then (some rst, s', [.wrCoil (addr + i) bit])
    else
      let (f, s'', tr) := writeBitSeq wc pbits addr s' (i + 1) n
      (f, s'', .wrCoil (addr + i) bit :: tr)

/-- Embedding of `modbus_slave_pdu_deal_read_coils` (fc 0x01): missing callback gives
exception 0x04; a failing callback gives the mapped exception; success
fills a read response with the packed bitmap, byte count `(nb+7)/8`. -/
def modbus_slave_pdu_deal_read_coils {σ : Type} (cb : Option (MbCbTable σ))
    (s : σ) (pdu : MbPdu) : MbPdu × σ × List MbEvent :=
  match cb with
  | none => (pduMakeExc pdu MODBUS_EC_SLAVE_OR_SERVER_FAILURE, s, [])
  | some t =>
    match t.read_coil with
    | none => (pduMakeExc pdu MODBUS_EC_SLAVE_OR_SERVER_FAILURE, s, [])
    | some rc =>
      match readSeq MbEvent.rdCoil rc s pdu.addr pdu.nb with
      | (some rst, _, s', tr) => (pduMakeExc pdu (-rst).toNat, s', tr)
      | (none, bits, s', tr) =>
        ({ pdu with dlen := (pdu.nb + 7) / 8, pdata := bitmapOfBits bits },
          s', tr)

/-- Embedding of `modbus_slave_pdu_deal_read_discs` (fc 0x02): identical to the coil
handler with the `read_disc` callback. -/
def modbus_slave_pdu_deal_read_discs {σ : Type} (cb : Option (MbCbTable σ))
    (s : σ) (pdu : MbPdu) : MbPdu × σ × List MbEvent :=
  match cb with
  | none => (pduMakeExc pdu MODBUS_EC_SLAVE_OR_SERVER_FAILURE, s, [])
  | some t =>
    match t.read_disc with
    | none => (pduMakeExc pdu MODBUS_EC_SLAVE_OR_SERVER_FAILURE, s, [])
    | some rd =>
      match readSeq MbEvent.rdDisc rd s pdu.addr pdu.nb with
      | (some rst, _, s', tr) => (pduMakeExc pdu (-rst).toNat, s', tr)
      | (none, bits, s', tr) =>
        ({ pdu with dlen := (pdu.nb + 7) / 8, pdata := bitmapOfBits bits },
          s', tr)

/-- Embedding of `modbus_slave_pdu_deal_read_holds` (fc 0x03): read `nb` holding
registers, encode them big-endian, byte count `2*nb`. -/
def modbus_slave_pdu_deal_read_holds {σ : Type} (cb : Option (MbCbTable σ))
    (s : σ) (pdu : MbPdu) : MbPdu × σ × List MbEvent :=
  match cb with
  | none => (pduMakeExc pdu MODBUS_EC_SLAVE_OR_SERVER_FAILURE, s, [])
  | some t =>
    match t.read_hold with
    | none => (pduMakeExc pdu MODBUS_EC_SLAVE_OR_SERVER_FAILURE, s, [])
    | some rh =>
      match readSeq MbEvent.rdHold rh s pdu.addr pdu.nb with
      | (some rst, _, s', tr) => (pduMakeExc pdu (-rst).toNat, s', tr)
      | (none, vals, s', tr) =>
        ({ pdu with dlen := 2 * pdu.nb, pdata := encodeU16s vals }, s', tr)

/-- Embedding of `modbus_slave_pdu_deal_read_inputs` (fc 0x04): same with
`read_input`. -/
def modbus_slave_pdu_deal_read_inputs {σ : Type} (cb : Option (MbCbTable σ))
    (s : σ) (pdu : MbPdu) : MbPdu × σ × List MbEvent :=
  match cb with
  | none => (pduMakeExc pdu MODBUS_EC_SLAVE_OR_SERVER_FAILURE, s, [])
  | some t =>
    match t.read_input with
    | none => (pduMakeExc pdu MODBUS_EC_SLAVE_OR_SERVER_FAILURE, s, [])
    | some ri =>
      match readSeq MbEvent.rdInput ri s pdu.addr pdu.nb with
      | (some rst, _, s', tr) => (pduMakeExc pdu (-rst).toNat, s', tr)
      | (none, vals, s', tr) =>
        ({ pdu with dlen := 2 * pdu.nb, pdata := encodeU16s vals }, s', tr)

/-- Embedding of `modbus_slave_pdu_deal_write_coil` (fc 0x05): missing callback gives
exception 0x04; a value other than 0x0000/0xFF00 gives exception 0x03
without invoking the callback; otherwise write `val ? 1 : 0` and echo
the request on success. -/
def modbus_slave_pdu_deal_write_coil {σ : Type} (cb : Option (MbCbTable σ))
    (s : σ) (pdu : MbPdu) : MbPdu × σ × List MbEvent :=
  match cb with
  | none => (pduMakeExc pdu MODBUS_EC_SLAVE_OR_SERVER_FAILURE, s, [])
  | some t =>
    match t.write_coil with
    | none => (pduMakeExc pdu MODBUS_EC_SLAVE_OR_SERVER_FAILURE, s, [])
    | some wc =>
      if pdu.val ≠ 0xFF00 ∧ pdu.val ≠ 0x0000 then
        (pduMakeExc pdu MODBUS_EC_ILLEGAL_DATA_VALUE, s, [])
      else
        let bit := if pdu.val ≠ 0 then 1 else 0
        let (rst, s') := wc s pdu.addr bit
        if rst < 0 then
          (pduMakeExc pdu (-rst).toNat, s', [.wrCoil pdu.addr bit])
        else (pdu, s', [.wrCoil pdu.addr bit])

/-- Embedding of `modbus_slave_pdu_deal_write_reg` (fc 0x06): write one holding
register and echo the request on success. -/
def modbus_slave_pdu_deal_write_reg {σ : Type} (cb : Option (MbCbTable σ))
    (s : σ) (pdu : MbPdu) : MbPdu × σ × List MbEvent :=
  match cb with
  | none => (pduMakeExc pdu MODBUS_EC_SLAVE_OR_SERVER_FAILURE, s, [])
  | some t =>
    match t.write_hold with
    | none => (pduMakeExc pdu MODBUS_EC_SLAVE_OR_SERVER_FAILURE, s, [])
    | some wh =>
      let (rst, s') := wh s pdu.addr pdu.val
      if rst < 0 then
        (pduMakeExc pdu (-rst).toNat, s', [.wrHold pdu.addr pdu.val])
      else (pdu, s', [.wrHold pdu.addr pdu.val])

/-- Embedding of `modbus_slave_pdu_deal_write_coils` (fc 0x0F): write `nb` bits from
the request bitmap at ascending addresses. -/
def modbus_slave_pdu_deal_write_coils {σ : Type} (cb : Option (MbCbTable σ))
    (s : σ) (pdu : MbPdu) : MbPdu × σ × List MbEvent :=
  match cb with
  | none => (pduMakeExc pdu MODBUS_EC_SLAVE_OR_SERVER_FAILURE, s, [])
  | some t =>
    match t.write_coil with
    | none => (pduMakeExc pdu MODBUS_EC_SLAVE_OR_SERVER_FAILURE, s, [])
    | some wc =>
      match writeBitSeq wc pdu.pdata pdu.addr s 0 pdu.nb with
      | (some rst, s', tr) => (pduMakeExc pdu (-rst).toNat, s', tr)
      | (none, s', tr) => (pdu, s', tr)

/-- Embedding of `modbus_slave_pdu_deal_write_regs` (fc 0x10): parse `nb` big-endian
registers from the request payload and write them at ascending
addresses. -/
def modbus_slave_pdu_deal_write_regs {σ : Type} (cb : Option (MbCbTable σ))
    (s : σ) (pdu : MbPdu) : MbPdu × σ × List MbEvent :=
  match cb with
  | none => (pduMakeExc pdu MODBUS_EC_SLAVE_OR_SERVER_FAILURE, s, [])
  | some t =>
    match t.write_hold with
    | none => (pduMakeExc pdu MODBUS_EC_SLAVE_OR_SERVER_FAILURE, s, [])
    | some wh =>
      match writeRegSeq wh s pdu.addr (parseU16s pdu.pdata pdu.nb 0) with
      | (some rst, s', tr) => (pduMakeExc pdu (-rst).toNat, s', tr)
      | (none, s', tr) => (pdu, s', tr)

/-- Embedding of `modbus_slave_pdu_deal_mask_write_reg` (fc 0x16): read the current
value, combine as `(val & and) | (or & ~and)` in u16 arithmetic, write
it back; either failure becomes the mapped exception, success echoes the
request. -/
def modbus_slave_pdu_deal_mask_write_reg {σ : Type}
    (cb : Option (MbCbTable σ)) (s : σ) (pdu : MbPdu) :
    MbPdu × σ × List MbEvent :=
  match cb with
  | none => (pduMakeExc pdu MODBUS_EC_SLAVE_OR_SERVER_FAILURE, s, [])
  | some t =>
    match t.read_hold, t.write_hold with
    | some rh, some wh =>
      let (rst, v, s₁) := rh s pdu.addr
      if rst < 0 then (pduMakeExc pdu (-rst).toNat, s₁, [.rdHold pdu.addr])
      else
        let newv := (v &&& pdu.val_and)
          ||| (pdu.val_or &&& (0xFFFF ^^^ pdu.val_and))
        let (rst2, s₂) := wh s₁ pdu.addr newv
        if rst2 < 0 then
          (pduMakeExc pdu (-rst2).toNat, s₂,
            [.rdHold pdu.addr, .wrHold pdu.addr newv])
        else (pdu, s₂, [.rdHold pdu.addr, .wrHold pdu.addr newv])
    | _, _ => (pduMakeExc pdu MODBUS_EC_SLAVE_OR_SERVER_FAILURE, s, [])

/-- Embedding of `modbus_slave_pdu_deal_write_and_read_regs` (fc 0x17): write the
`wr_nb` registers parsed from the payload at ascending addresses
starting at `wr_addr`; a failing write aborts with the mapped exception
before any read; then read `rd_nb` registers from `rd_addr` and fill a
read-response-shaped PDU with only the read results. -/
def modbus_slave_pdu_deal_write_and_read_regs {σ : Type}
    (cb : Option (MbCbTable σ)) (s : σ) (pdu : MbPdu) :
    MbPdu × σ × List MbEvent :=
  match cb with
  | none => (pduMakeExc pdu MODBUS_EC_SLAVE_OR_SERVER_FAILURE, s, [])
  | some t =>
    match t.read_hold, t.write_hold with
    | some rh, some wh =>
      match writeRegSeq wh s pdu.wr_addr (parseU16s pdu.pdata pdu.wr_nb 0) with
      | (some rst, s₁, trW) => (pduMakeExc pdu (-rst).toNat, s₁, trW)
      | (none, s₁, trW) =>
        match readSeq MbEvent.rdHold rh s₁ pdu.rd_addr pdu.rd_nb with
        | (some rst, _, s₂, trR) =>
          (pduMakeExc pdu (-rst).toNat, s₂, trW ++ trR)
        | (none, rvals, s₂, trR) =>
          ({ pdu with dlen := pdu.rd_nb * 2, pdata := encodeU16s rvals },
            s₂, trW ++ trR)
    | _, _ => (pduMakeExc pdu MODBUS_EC_SLAVE_OR_SERVER_FAILURE, s, [])

/-- Embedding of `modbus_slave_pdu_deal` (modbus_slave.c): dispatch by function code;
0x07 and 0x11 are recognised but not handled, unknown codes fall
through unchanged. -/
def modbus_slave_pdu_deal {σ : Type} (cb : Option (MbCbTable σ)) (s : σ)
    (pdu : MbPdu) : MbPdu × σ × List MbEvent :=
  match pdu.fc with
  | 0x01 => modbus_slave_pdu_deal_read_coils cb s pdu
  | 0x02 => modbus_slave_pdu_deal_read_discs cb s pdu
  | 0x03 => modbus_slave_pdu_deal_read_holds cb s pdu
  | 0x04 => modbus_slave_pdu_deal_read_inputs cb s pdu
  | 0x05 => modbus_slave_pdu_deal_write_coil cb s pdu
  | 0x06 => modbus_slave_pdu_deal_write_reg cb s pdu
  | 0x0F => modbus_slave_pdu_deal_write_coils cb s pdu
  | 0x10 => modbus_slave_pdu_deal_write_regs cb s pdu
  | 0x16 => modbus_slave_pdu_deal_mask_write_reg cb s pdu
  | 0x17 => modbus_slave_pdu_deal_write_and_read_regs cb s pdu
  | _ => (pdu, s, [])

/-- Observable outcome of `modbus_slave_recv_deal_rtu`: whether the
frame was handed to `modbus_slave_pdu_deal`, whether a response frame
was composed and sent, the response frame, the final user state, and
the callback trace. -/
structure SlaveDealResult (σ : Type) where
  dispatched : Bool
  responded : Bool
  respFrm : Option MbRtuFrm
  state : σ
  trace : List MbEvent

/-- Embedding of `modbus_slave_recv_deal_rtu` (modbus_slave.c): a parse result of 0
is silently dropped; with `MB_USING_ADDR_CHK` on, a slave address
different from the instance's is silently dropped (there is no special
case for the broadcast address 0); a parse result below 0 answers the
illegal-function exception without dispatching; otherwise the PDU is
dispatched and the (possibly exception) response is framed and sent.
The RTU frame parser/maker are not in the snapshot, so the parse
outcome is the oracle argument and the response is reported as a frame
structure. -/
def modbus_slave_recv_deal_rtu {σ : Type} (addrChk : Bool) (inst : MbInst)
    (cb : Option (MbCbTable σ)) (s : σ) (parse : Int × MbRtuFrm) :
    SlaveDealResult σ :=
  let pdu_len := parse.1
  let frm := parse.2
  if pdu_len = 0 then ⟨false, false, none, s, []⟩
  else if addrChk ∧ frm.saddr ≠ inst.saddr then ⟨false, false, none, s, []⟩
  else if pdu_len < 0 then
    ⟨false, true,
      some { frm with pdu := pduMakeExc frm.pdu MODBUS_EC_ILLEGAL_FUNCTION },
      s, []⟩
  else
    let (pdu', s', tr) := modbus_slave_pdu_deal cb s frm.pdu
    ⟨true, true, some { frm with pdu := pdu' }, s', tr⟩

/-- C4 counterexample: an RTU broadcast frame (slave address 0) arriving
at a slave with address 1 and address checking enabled is dropped by the
address comparison — it is not delivered to the dispatch handlers
(`dispatched = false`), contradicting the claim that broadcasts are
delivered and processed.  (No response is sent either.) -/
theorem c4_broadcast_counterexample :
    (modbus_slave_recv_deal_rtu true
        { prototype := .rtu, saddr := 1, tid := 0, tsid := 0 }
        (none : Option (MbCbTable Unit)) ()
        (5, { saddr := 0, pdu := { fc := 3, addr := 0, nb := 1 } })).dispatched
      = false
    ∧ (modbus_slave_recv_deal_rtu true
        { prototype := .rtu, saddr := 1, tid := 0, tsid := 0 }
        (none : Option (MbCbTable Unit)) ()
        (5, { saddr := 0, pdu := { fc := 3, addr := 0, nb := 1 } })).responded
      = false := by
  constructor <;> rfl

/-- C4 amended: with address checking enabled, every RTU frame whose
slave address differs from the instance's address — the broadcast
address 0 included, since the code has no special case for it — is
silently dropped: it is not dispatched, no response is composed or sent,
and no callback runs. -/
theorem c4_addr_mismatch_silent {σ : Type} (inst : MbInst)
    (cb : Option (MbCbTable σ)) (s : σ) (pdu_len : Int) (frm : MbRtuFrm)
    (h : frm.saddr ≠ inst.saddr) :
    (modbus_slave_recv_deal_rtu true inst cb s (pdu_len, frm)).dispatched
      = false
    ∧ (modbus_slave_recv_deal_rtu true inst cb s (pdu_len, frm)).responded
      = false
    ∧ (modbus_slave_recv_deal_rtu true inst cb s (pdu_len, frm)).respFrm
      = none
    ∧ (modbus_slave_recv_deal_rtu true inst cb s (pdu_len, frm)).trace
      = [] := by
  by_cases h0 : pdu_len = 0 <;>
    simp [modbus_slave_recv_deal_rtu, h0, h]

/-- C4 amended witness: the amended statement at a concrete broadcast
frame (slave address 0, instance address 1). -/
theorem c4_addr_mismatch_silent_witness :
    (modbus_slave_recv_deal_rtu true
        { prototype := .rtu, saddr := 1, tid := 0, tsid := 0 }
        (none : Option (MbCbTable Unit)) ()
        (5, { saddr := 0, pdu := { fc := 3, addr := 0, nb := 1 } })).dispatched
      = false
    ∧ (modbus_slave_recv_deal_rtu true
        { prototype := .rtu, saddr := 1, tid := 0, tsid := 0 }
        (none : Option (MbCbTable Unit)) ()
        (5, { saddr := 0, pdu := { fc := 3, addr := 0, nb := 1 } })).responded
      = false
    ∧ (modbus_slave_recv_deal_rtu true
        { prototype := .rtu, saddr := 1, tid := 0, tsid := 0 }
        (none : Option (MbCbTable Unit)) ()
        (5, { saddr := 0, pdu := { fc := 3, addr := 0, nb := 1 } })).respFrm
      = none
    ∧ (modbus_slave_recv_deal_rtu true
        { prototype := .rtu, saddr := 1, tid := 0, tsid := 0 }
        (none : Option (MbCbTable Unit)) ()
        (5, { saddr := 0, pdu := { fc := 3, addr := 0, nb := 1 } })).trace
      = [] :=
  c4_addr_mismatch_silent
    { prototype := .rtu, saddr := 1, tid := 0, tsid := 0 }
    (none : Option (MbCbTable Unit)) () 5
    { saddr := 0, pdu := { fc := 3, addr := 0, nb := 1 } } (by decide)

/-- C8: when the write-single-coil handler sees a value that is neither
0x0000 nor 0xFF00 (callback table present), it composes the exception
response in place — exception code 0x03, function code OR'd with 0x80 —
and the `write_coil` callback is not invoked (empty trace, state
unchanged). -/
theorem c8_write_coil_illegal_value {σ : Type} (t : MbCbTable σ)
    (wc : σ → Nat → Nat → Int × σ) (s : σ) (pdu : MbPdu)
    (hwc : t.write_coil = some wc)
    (hv : pdu.val ≠ 0xFF00) (hv0 : pdu.val ≠ 0x0000) :
    modbus_slave_pdu_deal_write_coil (some t) s pdu
      = (pduMakeExc pdu MODBUS_EC_ILLEGAL_DATA_VALUE, s, [])
    ∧ (pduMakeExc pdu MODBUS_EC_ILLEGAL_DATA_VALUE).ec = 0x03
    ∧ (pduMakeExc pdu MODBUS_EC_ILLEGAL_DATA_VALUE).fc = pdu.fc ||| 0x80 := by
  refine ⟨?_, rfl, rfl⟩
  simp [modbus_slave_pdu_deal_write_coil, hwc, hv, hv0]

/-- C8 witness: the handler at value 0x0100 (coil 10, fc 0x05) produces
exception code 3 with fc 0x85 and an empty callback trace. -/
theorem c8_write_coil_illegal_value_witness :
    modbus_slave_pdu_deal_write_coil
        (some ({ write_coil := some (fun (s : Unit) _ _ => (0, s)) } :
          MbCbTable Unit)) ()
        { fc := 5, addr := 10, val := 0x0100 }
      = (pduMakeExc { fc := 5, addr := 10, val := 0x0100 }
          MODBUS_EC_ILLEGAL_DATA_VALUE, (), [])
    ∧ (pduMakeExc { fc := 5, addr := 10, val := 0x0100 }
        MODBUS_EC_ILLEGAL_DATA_VALUE).ec = 0x03
    ∧ (pduMakeExc { fc := 5, addr := 10, val := 0x0100 }
        MODBUS_EC_ILLEGAL_DATA_VALUE).fc
      = ({ fc := 5, addr := 10, val := 0x0100 } : MbPdu).fc ||| 0x80 :=
  c8_write_coil_illegal_value
    { write_coil := some (fun (s : Unit) _ _ => (0, s)) }
    (fun (s : Unit) _ _ => (0, s)) ()
    { fc := 5, addr := 10, val := 0x0100 } rfl (by decide) (by decide)

/-- Register-file callback table over the state `Nat → Nat`: reads
return the stored value with result 0, writes update the register file
with result 0. -/
def regFileCb : MbCbTable (Nat → Nat) :=
  { read_hold := some (fun f a => (0, f a, f)),
    write_hold := some (fun f a v => (0, Function.update f a v)) }

theorem nat_and_ffff_eq (n : Nat) (h : n < 65536) : n &&& 0xFFFF = n := by
  have h1 : (0xFFFF : Nat) = 2 ^ 16 - 1 := by norm_num
  rw [h1, Nat.and_pow_two_sub_one_eq_mod]
  exact Nat.mod_eq_of_lt h

/-- C6: the mask-write handler.  (1) Whenever the read callback succeeds
with current value `v`, the handler invokes the write callback with
exactly `(v AND and_mask) OR (or_mask AND NOT and_mask)` (u16
complement), as witnessed by the callback trace.  (2) With a register
file state, `and_mask = 0xFFFF`, `or_mask = 0` leaves the register file
unchanged.  (3) With `and_mask = 0`, the value `V` of `or_mask` is
stored. -/
theorem c6_mask_write_formula :
    (∀ (σ : Type) (t : MbCbTable σ) (rh : σ → Nat → Int × Nat × σ)
       (wh : σ → Nat → Nat → Int × σ) (s : σ) (pdu : MbPdu) (rst : Int)
       (v : Nat) (s₁ : σ),
       t.read_hold = some rh → t.write_hold = some wh →
       rh s pdu.addr = (rst, v, s₁) → 0 ≤ rst →
       (modbus_slave_pdu_deal_mask_write_reg (some t) s pdu).2.2
         = [MbEvent.rdHold pdu.addr,
            MbEvent.wrHold pdu.addr
              ((v &&& pdu.val_and)
                ||| (pdu.val_or &&& (0xFFFF ^^^ pdu.val_and)))])
    ∧ (∀ (f : Nat → Nat) (addr : Nat), f addr < 65536 →
       (modbus_slave_pdu_deal_mask_write_reg (some regFileCb) f
         { fc := 0x16, addr := addr, val_and := 0xFFFF,
           val_or := 0 }).2.1 = f)
    ∧ (∀ (f : Nat → Nat) (addr V : Nat), V < 65536 →
       (modbus_slave_pdu_deal_mask_write_reg (some regFileCb) f
         { fc := 0x16, addr := addr, val_and := 0,
           val_or := V }).2.1 addr = V) := by
  refine ⟨?_, ?_, ?_⟩
  · intro σ t rh wh s pdu rst v s₁ hr hw hread hrst
    have hnlt : ¬ rst < 0 := not_lt.mpr hrst
    rcases hwh : wh s₁ pdu.addr
        ((v &&& pdu.val_and) ||| (pdu.val_or &&& (0xFFFF ^^^ pdu.val_and)))
      with ⟨rst2, s₂⟩
    by_cases h2 : rst2 < 0 <;>
      simp [modbus_slave_pdu_deal_mask_write_reg, hr, hw, hread, hnlt,
        hwh, h2]
  · intro f addr hlt
    have hmask : f addr &&& 0xFFFF = f addr := nat_and_ffff_eq (f addr) hlt
    simp [modbus_slave_pdu_deal_mask_write_reg, regFileCb, hmask,
      Function.update_eq_self]
  · intro f addr V hV
    have hmask : V &&& 0xFFFF = V := nat_and_ffff_eq V hV
    simp [modbus_slave_pdu_deal_mask_write_reg, regFileCb, hmask,
      Function.update_same]

/-- C6 witness: the three parts at concrete inputs — the trace of a
mask-write with and 0x00F0 / or 0x000F on current value 0x1234, the
identity masks leaving the register file unchanged, and the
overwrite masks storing 0x0BCD. -/
theorem c6_mask_write_formula_witness :
    (modbus_slave_pdu_deal_mask_write_reg (some regFileCb)
        (fun _ => 0x1234)
        { fc := 0x16, addr := 7, val_and := 0x00F0, val_or := 0x000F }).2.2
      = [MbEvent.rdHold 7,
         MbEvent.wrHold 7
           ((0x1234 &&& 0x00F0) ||| (0x000F &&& (0xFFFF ^^^ 0x00F0)))]
    ∧ (modbus_slave_pdu_deal_mask_write_reg (some regFileCb)
        (fun _ => 0x1234)
        { fc := 0x16, addr := 7, val_and := 0xFFFF, val_or := 0 }).2.1
      = (fun _ => 0x1234)
    ∧ (modbus_slave_pdu_deal_mask_write_reg (some regFileCb)
        (fun _ => 0x1234)
        { fc := 0x16, addr := 7, val_and := 0, val_or := 0x0BCD }).2.1 7
      = 0x0BCD := by
  refine ⟨?_, ?_, ?_⟩
  · exact c6_mask_write_formula.1 (Nat → Nat) regFileCb
      (fun f a => (0, f a, f)) (fun f a v => (0, Function.update f a v))
      (fun _ => 0x1234)
      { fc := 0x16, addr := 7, val_and := 0x00F0, val_or := 0x000F }
      0 0x1234 (fun _ => 0x1234) rfl rfl rfl (by norm_num)
  · exact c6_mask_write_formula.2.1 (fun _ => 0x1234) 7 (by norm_num)
  · exact c6_mask_write_formula.2.2 (fun _ => 0x1234) 7 0x0BCD (by norm_num)

theorem parseU16s_length (bytes : List Nat) :
    ∀ n off, (parseU16s bytes n off).length = n := by
  intro n
  induction n with
  | zero => intro off; rfl
  | succ m ih => intro off; simp [parseU16s, ih]

theorem encodeU16s_length (vals : List Nat) :
    (encodeU16s vals).length = 2 * vals.length := by
  induction vals with
  | nil => rfl
  | cons v vs ih =>
    simp only [encodeU16s, List.flatMap_cons] at *
    simp [modbus_cvt_u16_put, ih]
    omega

theorem writeRegSeq_trace {σ : Type} (wh : σ → Nat → Nat → Int × σ) :
    ∀ (vals : List Nat) (s : σ) (addr : Nat),
      ∃ k, k ≤ vals.length ∧
        (writeRegSeq wh s addr vals).2.2
          = (List.range k).map
              (fun i => MbEvent.wrHold (addr + i) (vals.getD i 0))
        ∧ ((writeRegSeq wh s addr vals).1 = none → k = vals.length) := by
  intro vals
  induction vals with
  | nil =>
    intro s addr
    exact ⟨0, Nat.le_refl 0, rfl, fun _ => rfl⟩
  | cons v vs ih =>
    intro s addr
    rcases hwh : wh s addr v with ⟨rst, s'⟩
    by_cases hrst : rst < 0
    · refine ⟨1, by simp, ?_, ?_⟩
      · simp [writeRegSeq, hwh, hrst, List.range_succ]
      · intro hnone
        rw [writeRegSeq] at hnone
        simp [hwh, hrst] at hnone
    · obtain ⟨k, hk, htr, hnone⟩ := ih s' (addr + 1)
      rcases hrec : writeRegSeq wh s' (addr + 1) vs with ⟨f, s'', tr⟩
      rw [hrec] at htr hnone
      simp only at htr hnone
      refine ⟨k + 1, by simpa using Nat.succ_le_succ hk, ?_, ?_⟩
      · have hred : (writeRegSeq wh s addr (v :: vs)).2.2
            = MbEvent.wrHold addr v :: tr := by
          rw [writeRegSeq]
          simp [hwh, hrst, hrec]
        rw [hred, htr, List.range_succ_eq_map, List.map_cons, List.map_map]
        congr 1
        apply List.map_congr_left
        intro i _
        simp only [Function.comp_apply, Nat.succ_eq_add_one,
          List.getD_cons_succ]
        congr 1
        omega
      · intro hn
        have hred : (writeRegSeq wh s addr (v :: vs)).1 = f := by
          rw [writeRegSeq]
          simp [hwh, hrst, hrec]
        rw [hred] at hn
        simp [hnone hn]

theorem readSeq_trace_shape {σ : Type} (mk : Nat → MbEvent)
    (rd : σ → Nat → Int × Nat × σ) :
    ∀ (n : Nat) (s : σ) (addr : Nat),
      ∀ e ∈ (readSeq mk rd s addr n).2.2.2, ∃ a, e = mk a := by
  intro n
  induction n with
  | zero => intro s addr e he; simp [readSeq] at he
  | succ m ih =>
    intro s addr e he
    rcases hrd : rd s addr with ⟨rst, v, s'⟩
    by_cases hrst : rst < 0
    · rw [readSeq] at he
      simp [hrd, hrst] at he
      exact ⟨addr, he⟩
    · rcases hrec : readSeq mk rd s' (addr + 1) m with ⟨f, vs, s'', tr⟩
      rw [readSeq] at he
      simp [hrd, hrst, hrec] at he
      rcases he with he | he
      · exact ⟨addr, he⟩
      · have := ih s' (addr + 1) e
        rw [hrec] at this
        exact this he

theorem readSeq_none_length {σ : Type} (mk : Nat → MbEvent)
    (rd : σ → Nat → Int × Nat × σ) :
    ∀ (n : Nat) (s : σ) (addr : Nat),
      (readSeq mk rd s addr n).1 = none →
      (readSeq mk rd s addr n).2.1.length = n := by
  intro n
  induction n with
  | zero => intro s addr _; rfl
  | succ m ih =>
    intro s addr hn
    rcases hrd : rd s addr with ⟨rst, v, s'⟩
    by_cases hrst : rst < 0
    · rw [readSeq] at hn
      simp [hrd, hrst] at hn
    · rcases hrec : readSeq mk rd s' (addr + 1) m with ⟨f, vs, s'', tr⟩
      rw [readSeq] at hn ⊢
      simp [hrd, hrst, hrec] at hn ⊢
      have := ih s' (addr + 1)
      rw [hrec] at this
      simp only at this
      exact this hn

/-- C5: the 0x17 read/write-multiple handler.  (1) Its callback trace is
the ascending-address write prefix (carrying the registers parsed from
the request payload) followed by read events only — so every write
precedes every read.  (2) If a write callback fails, the handler
composes the mapped exception immediately and the trace contains write
events only: no read is performed.  (3) If all writes and reads succeed,
the response PDU keeps the function code and is read-response-shaped,
carrying exactly the `2 * rd_nb` bytes of the read results and nothing
else. -/
theorem c5_write_before_read {σ : Type} (t : MbCbTable σ)
    (rh : σ → Nat → Int × Nat × σ) (wh : σ → Nat → Nat → Int × σ)
    (s : σ) (pdu : MbPdu)
    (hr : t.read_hold = some rh) (hw : t.write_hold = some wh) :
    (∃ k, k ≤ pdu.wr_nb ∧ ∃ trR : List MbEvent,
      (modbus_slave_pdu_deal_write_and_read_regs (some t) s pdu).2.2
        = (List.range k).map (fun i => MbEvent.wrHold (pdu.wr_addr + i)
            ((parseU16s pdu.pdata pdu.wr_nb 0).getD i 0)) ++ trR
      ∧ ∀ e ∈ trR, ∃ a, e = MbEvent.rdHold a)
    ∧ (∀ rst,
        (writeRegSeq wh s pdu.wr_addr
          (parseU16s pdu.pdata pdu.wr_nb 0)).1 = some rst →
        (modbus_slave_pdu_deal_write_and_read_regs (some t) s pdu).1
          = pduMakeExc pdu (-rst).toNat
        ∧ ∀ e ∈ (modbus_slave_pdu_deal_write_and_read_regs
            (some t) s pdu).2.2, ∃ a v, e = MbEvent.wrHold a v)
    ∧ ((writeRegSeq wh s pdu.wr_addr
          (parseU16s pdu.pdata pdu.wr_nb 0)).1 = none →
        (readSeq MbEvent.rdHold rh
          (writeRegSeq wh s pdu.wr_addr
            (parseU16s pdu.pdata pdu.wr_nb 0)).2.1
          pdu.rd_addr pdu.rd_nb).1 = none →
        (modbus_slave_pdu_deal_write_and_read_regs (some t) s pdu).1.fc
          = pdu.fc
        ∧ (modbus_slave_pdu_deal_write_and_read_regs (some t) s pdu).1.dlen
          = pdu.rd_nb * 2
        ∧ (modbus_slave_pdu_deal_write_and_read_regs
            (some t) s pdu).1.pdata.length = pdu.rd_nb * 2
        ∧ (modbus_slave_pdu_deal_write_and_read_regs
            (some t) s pdu).1.pdata
          = encodeU16s (readSeq MbEvent.rdHold rh
              (writeRegSeq wh s pdu.wr_addr
                (parseU16s pdu.pdata pdu.wr_nb 0)).2.1
              pdu.rd_addr pdu.rd_nb).2.1) := by
  rcases hwrec : writeRegSeq wh s pdu.wr_addr
    (parseU16s pdu.pdata pdu.wr_nb 0) with ⟨wf, s₁, trW⟩
  obtain ⟨k, hk, htrW, hkfull⟩ := writeRegSeq_trace wh
    (parseU16s pdu.pdata pdu.wr_nb 0) s pdu.wr_addr
  rw [hwrec] at htrW hkfull
  simp only at htrW hkfull
  have hkle : k ≤ pdu.wr_nb := by
    have := parseU16s_length pdu.pdata pdu.wr_nb 0
    omega
  cases wf with
  | some rst =>
    have hred : modbus_slave_pdu_deal_write_and_read_regs (some t) s pdu
        = (pduMakeExc pdu (-rst).toNat, s₁, trW) := by
      simp [modbus_slave_pdu_deal_write_and_read_regs, hr, hw, hwrec]
    refine ⟨⟨k, hkle, [], ?_, by simp⟩, ?_, ?_⟩
    · rw [hred]
      simp [htrW]
    · intro rst' h
      simp at h
      subst h
      refine ⟨by rw [hred], ?_⟩
      intro e he
      rw [hred] at he
      simp only at he
      rw [htrW] at he
      simp only [List.mem_map, List.mem_range] at he
      obtain ⟨i, _, hei⟩ := he
      exact ⟨_, _, hei.symm⟩
    · intro h
      simp at h
  | none =>
    rcases hrrec : readSeq MbEvent.rdHold rh s₁ pdu.rd_addr pdu.rd_nb
      with ⟨rf, rvals, s₂, trR⟩
    have hshape := readSeq_trace_shape MbEvent.rdHold rh pdu.rd_nb s₁
      pdu.rd_addr
    rw [hrrec] at hshape
    simp only at hshape
    cases rf with
    | some rst =>
      have hred : modbus_slave_pdu_deal_write_and_read_regs (some t) s pdu
          = (pduMakeExc pdu (-rst).toNat, s₂, trW ++ trR) := by
        simp [modbus_slave_pdu_deal_write_and_read_regs, hr, hw, hwrec,
          hrrec]
      refine ⟨⟨k, hkle, trR, ?_, hshape⟩, ?_, ?_⟩
      · rw [hred]
        show trW ++ trR = _
        rw [htrW]
      · intro rst' h
        simp at h
      · intro h1 h2
        simp at h2
    | none =>
      have hred : modbus_slave_pdu_deal_write_and_read_regs (some t) s pdu
          = ({ pdu with dlen := pdu.rd_nb * 2, pdata := encodeU16s rvals }, s₂, trW ++ trR) := by
        simp [modbus_slave_pdu_deal_write_and_read_regs, hr, hw, hwrec,
          hrrec]
      have hlen : rvals.length = pdu.rd_nb := by
        have := readSeq_none_length MbEvent.rdHold rh pdu.rd_nb s₁
          pdu.rd_addr
        rw [hrrec] at this
        simp at this
        exact this
      refine ⟨⟨k, hkle, trR, ?_, hshape⟩, ?_, ?_⟩
      · rw [hred]
        show trW ++ trR = _
        rw [htrW]
      · intro rst' h
        simp at h
      · intro h1 h2
        refine ⟨by rw [hred], by rw [hred], ?_, ?_⟩
        · rw [hred]
          show (encodeU16s rvals).length = pdu.rd_nb * 2
          rw [encodeU16s_length, hlen]
          omega
        · rw [hred]

/-- C5 witness: the write-before-read statement applied to a concrete
register-file slave handling a 0x17 request that writes one register
(value 0x1234 at address 5) and reads one register (address 5). -/
theorem c5_write_before_read_witness :
    (∃ k, k ≤ 1 ∧ ∃ trR : List MbEvent,
      (modbus_slave_pdu_deal_write_and_read_regs (some regFileCb)
          (fun _ => 0)
          { fc := 0x17, pdata := [18, 52], rd_addr := 5, rd_nb := 1,
            wr_addr := 5, wr_nb := 1 }).2.2
        = (List.range k).map (fun i => MbEvent.wrHold (5 + i)
            ((parseU16s [18, 52] 1 0).getD i 0)) ++ trR
      ∧ ∀ e ∈ trR, ∃ a, e = MbEvent.rdHold a)
    ∧ (∀ rst,
        (writeRegSeq (fun f a v => (0, Function.update f a v))
          (fun _ => 0) 5 (parseU16s [18, 52] 1 0)).1 = some rst →
        (modbus_slave_pdu_deal_write_and_read_regs (some regFileCb)
            (fun _ => 0)
            { fc := 0x17, pdata := [18, 52], rd_addr := 5, rd_nb := 1,
              wr_addr := 5, wr_nb := 1 }).1
          = pduMakeExc
              { fc := 0x17, pdata := [18, 52], rd_addr := 5, rd_nb := 1,
                wr_addr := 5, wr_nb := 1 } (-rst).toNat
        ∧ ∀ e ∈ (modbus_slave_pdu_deal_write_and_read_regs (some regFileCb)
            (fun _ => 0)
            { fc := 0x17, pdata := [18, 52], rd_addr := 5, rd_nb := 1,
              wr_addr := 5, wr_nb := 1 }).2.2,
            ∃ a v, e = MbEvent.wrHold a v)
    ∧ ((writeRegSeq (fun f a v => (0, Function.update f a v))
          (fun _ => 0) 5 (parseU16s [18, 52] 1 0)).1 = none →
        (readSeq MbEvent.rdHold (fun f a => (0, f a, f))
          (writeRegSeq (fun f a v => (0, Function.update f a v))
            (fun _ => 0) 5 (parseU16s [18, 52] 1 0)).2.1 5 1).1 = none →
        (modbus_slave_pdu_deal_write_and_read_regs (some regFileCb)
            (fun _ => 0)
            { fc := 0x17, pdata := [18, 52], rd_addr := 5, rd_nb := 1,
              wr_addr := 5, wr_nb := 1 }).1.fc = 0x17
        ∧ (modbus_slave_pdu_deal_write_and_read_regs (some regFileCb)
            (fun _ => 0)
            { fc := 0x17, pdata := [18, 52], rd_addr := 5, rd_nb := 1,
              wr_addr := 5, wr_nb := 1 }).1.dlen = 1 * 2
        ∧ (modbus_slave_pdu_deal_write_and_read_regs (some regFileCb)
            (fun _ => 0)
            { fc := 0x17, pdata := [18, 52], rd_addr := 5, rd_nb := 1,
              wr_addr := 5, wr_nb := 1 }).1.pdata.length = 1 * 2
        ∧ (modbus_slave_pdu_deal_write_and_read_regs (some regFileCb)
            (fun _ => 0)
            { fc := 0x17, pdata := [18, 52], rd_addr := 5, rd_nb := 1,
              wr_addr := 5, wr_nb := 1 }).1.pdata
          = encodeU16s (readSeq MbEvent.rdHold (fun f a => (0, f a, f))
              (writeRegSeq (fun f a v => (0, Function.update f a v))
                (fun _ => 0) 5 (parseU16s [18, 52] 1 0)).2.1 5 1).2.1) :=
  c5_write_before_read regFileCb (fun f a => (0, f a, f))
    (fun f a v => (0, Function.update f a v)) (fun _ => 0)
    { fc := 0x17, pdata := [18, 52], rd_addr := 5, rd_nb := 1,
      wr_addr := 5, wr_nb := 1 } rfl rfl
